import Mathlib

/-!
Shallow embedding of the structured-document parser and query engine of the
`ro_law_mcp` repository, together with proofs settling the frozen claims
about it.

Python strings are modelled as `List Char` (Python indexes strings by code
point, exactly as `List Char` does).  Python exceptions are modelled with
`Except PyErr`.  Each definition carries a comment naming the source
function it embeds; definitions whose source file is absent from the
repository snapshot are marked `Modelled from the spec:`.
-/

namespace RoLaw

/-- Python exception kinds that the embedded code can raise. -/
inductive PyErr where
  | indexError
  | typeError
  | attributeError
  | valueError
deriving DecidableEq, Repr

/-- Decidable equality for `Except` results, so concrete runs can be
settled by `decide`. -/
instance {ε α : Type} [DecidableEq ε] [DecidableEq α] :
    DecidableEq (Except ε α) := fun x y =>
  match x, y with
  | .ok a, .ok b =>
      if h : a = b then isTrue (by rw [h])
      else isFalse (by intro hh; cases hh; exact h rfl)
  | .error a, .error b =>
      if h : a = b then isTrue (by rw [h])
      else isFalse (by intro hh; cases hh; exact h rfl)
  | .ok _, .error _ => isFalse (by intro hh; cases hh)
  | .error _, .ok _ => isFalse (by intro hh; cases hh)

/-! ## Python string primitives over `List Char` -/

/-- Python whitespace characters recognised by `str.strip` / `str.split`. -/
def pyIsWs (c : Char) : Bool :=
  c = ' ' || c = '\t' || c = '\n' || c = '\r' ||
  c = Char.ofNat 11 || c = Char.ofNat 12

/-- Python `str.strip()` (no arguments): drop leading and trailing whitespace. -/
def pyStrip (t : List Char) : List Char :=
  ((t.dropWhile pyIsWs).reverse.dropWhile pyIsWs).reverse

/-- Helper for `pySplitWs`: split into maximal runs of non-whitespace. -/
def pySplitWsAux : List Char → List Char → List (List Char)
  | [], acc => if acc = [] then [] else [acc.reverse]
  | c :: t, acc =>
      if pyIsWs c then
        if acc = [] then pySplitWsAux t []
        else acc.reverse :: pySplitWsAux t []
      else pySplitWsAux t (c :: acc)

/-- Python `str.split()` (no separator): whitespace runs, no empty items. -/
def pySplitWs (t : List Char) : List (List Char) :=
  pySplitWsAux t []

/-- Python `haystack.find(needle)`: index of the first occurrence, `none`
for Python's `-1`.  (`t.find("") == 0`, as in Python.) -/
def pyFind (t pat : List Char) : Option Nat :=
  if pat.isPrefixOf t then some 0
  else
    match t with
    | [] => none
    | _ :: t' => (pyFind t' pat).map (· + 1)

/-- Python `str.split(sep)` with a non-empty separator; `fuel` bounds the
recursion and is always called with `fuel > number of separator occurrences`,
on which the function agrees with Python. -/
def pySplitOnF (fuel : Nat) (t sep : List Char) : List (List Char) :=
  match fuel with
  | 0 => [t]
  | fuel + 1 =>
      match pyFind t sep with
      | none => [t]
      | some i => t.take i :: pySplitOnF fuel (t.drop (i + sep.length)) sep

/-- Python `str.split(sep)` entry point (`fuel = length + 1` always suffices:
each step drops at least `sep.length ≥ 1` characters). -/
def pySplitOn (t sep : List Char) : List (List Char) :=
  pySplitOnF (t.length + 1) t sep

/-- Python `str.endswith(suffix)`. -/
def pyEndsWith (t suf : List Char) : Bool :=
  suf.isSuffixOf t

/-- ASCII decimal digit test (Python `int()` accepts exactly these for our
inputs). -/
def pyIsDigit (c : Char) : Bool :=
  '0' ≤ c && c ≤ '9'

/-- Digits of a token to a natural number. -/
def digitsToNat (t : List Char) : Nat :=
  t.foldl (fun acc c => acc * 10 + (c.toNat - '0'.toNat)) 0

/-- Python `int(s)`: strips whitespace, allows a sign, then decimal digits;
`none` models `ValueError`.  (Underscore separators, accepted by Python
between digits, never occur in this program's inputs and are rejected.) -/
def pyInt (t : List Char) : Option Int :=
  let s := pyStrip t
  match s with
  | '+' :: ds =>
      if ds ≠ [] && ds.all pyIsDigit then some (digitsToNat ds) else none
  | '-' :: ds =>
      if ds ≠ [] && ds.all pyIsDigit then some (-(digitsToNat ds : Int)) else none
  | ds =>
      if ds ≠ [] && ds.all pyIsDigit then some (digitsToNat ds) else none

/-- Python slice `t[a:b]` with non-negative bounds. -/
def pySliceNat (t : List Char) (a b : Nat) : List Char :=
  (t.take b).drop a

/-- Normalize one Python slice index (step `1`): negative indices count from
the end, then the result is clamped to `[0, len]`. -/
def pySliceIdx (len : Nat) (i : Int) : Nat :=
  let j : Int := if i < 0 then i + len else i
  if j < 0 then 0 else min j.toNat len

/-- Python slice `t[a:b]` with possibly negative bounds (step `1`). -/
def pySliceInt (t : List Char) (a b : Int) : List Char :=
  pySliceNat t (pySliceIdx t.length a) (pySliceIdx t.length b)

/-- Python `str(n)` for a natural number. -/
def natToStrL (n : Nat) : List Char :=
  (Nat.toDigits 10 n)

/-- Python `c.isalpha()` restricted to the Latin letters this program meets. -/
def pyIsAlpha (c : Char) : Bool :=
  ('a' ≤ c && c ≤ 'z') || ('A' ≤ c && c ≤ 'Z')

/-! ## Roman numerals

The module `structured_document/mappings/mappings.py` (imported for
`ROMAN_NUMERALS` by `validator.py`, `extractor.py` and `text_parse.py`) is
absent from the repository snapshot, so the list is modelled from the spec. -/

/-- Standard Roman numeral of a positive number (subtractive notation),
with `fuel` for structural recursion (`fuel = n` suffices). -/
def romanOfNatF : Nat → Nat → List Char
  | 0, _ => []
  | _ + 1, 0 => []
  | fuel + 1, n =>
      if n ≥ 50 then 'L' :: romanOfNatF fuel (n - 50)
      else if n ≥ 40 then 'X' :: 'L' :: romanOfNatF fuel (n - 40)
      else if n ≥ 10 then 'X' :: romanOfNatF fuel (n - 10)
      else if n = 9 then ['I', 'X']
      else if n ≥ 5 then 'V' :: romanOfNatF fuel (n - 5)
      else if n = 4 then ['I', 'V']
      else 'I' :: romanOfNatF fuel (n - 1)

/-- Roman numeral of `n` (valid for `1 ≤ n ≤ 59`). -/
def romanOfNat (n : Nat) : List Char :=
  romanOfNatF n n

/-- Modelled from the spec: the ordered list `ROMAN_NUMERALS` from the missing
`mappings.py` — upper-case Roman numerals for 1, 2, 3, … in order, so that
`ROMAN_NUMERALS.index(w) + 1` is the numeral's value (as `text_parse.py`
assumes).  Fifty entries cover every numbering in scope. -/
def ROMAN_NUMERALS : List (List Char) :=
  (List.range 50).map (fun i => romanOfNat (i + 1))

/-- Python `w in ROMAN_NUMERALS`. -/
def isRomanNumeral (w : List Char) : Bool :=
  ROMAN_NUMERALS.contains w

/-- Python `ROMAN_NUMERALS.index(w)`; `none` models `ValueError`. -/
def romanIndex (w : List Char) : Option Nat :=
  ROMAN_NUMERALS.indexOf? w

/-! ## Element type hierarchy (`structured_document/element.py`) -/

/-- `DocumentElementType` (element.py:125). -/
inductive ElementType where
  | TOP
  | PART
  | BOOK
  | TITLE
  | CHAPTER
  | SECTION
  | ARTICLE
deriving DecidableEq, Repr

/-- `DocumentElementType.get_hierarchy` (element.py:136). -/
def ElementType.getHierarchy : List ElementType :=
  [.TOP, .PART, .BOOK, .TITLE, .CHAPTER, .SECTION, .ARTICLE]

/-- `DocumentElementType.to_keyword` (element.py:150); `none` models the
Python `None` returned for `TOP`.  The `SECTION` keyword is the exact
(mojibake) literal from the source file. -/
def ElementType.toKeyword : ElementType → Option (List Char)
  | .PART => some "PARTEA".data
  | .BOOK => some "Cartea".data
  | .TITLE => some "Titlul".data
  | .CHAPTER => some "Capitolul".data
  | .SECTION => some "SecÅ£iunea".data
  | .ARTICLE => some "Articolul".data
  | .TOP => none

/-- `DocumentElementType.to_string` (element.py:147) — an alias of
`to_keyword`. -/
def ElementType.toKeywordString (t : ElementType) : Option (List Char) :=
  t.toKeyword

/-- `DocumentElementType.get_possible_child_types` (element.py:170). -/
def ElementType.getPossibleChildTypes (t : ElementType) : List ElementType :=
  match ElementType.getHierarchy.indexOf? t with
  | some pos => ElementType.getHierarchy.drop (pos + 1)
  | none => []

/-- `DocumentElementType.get_possible_equal_or_greater_types`
(element.py:178). -/
def ElementType.getPossibleEqualOrGreaterTypes (t : ElementType) : List ElementType :=
  if t = .TOP then []
  else
    match ElementType.getHierarchy.indexOf? t with
    | some pos => ElementType.getHierarchy.take (pos + 1)
    | none => []

/-- `DocumentPartType` (document_model/part.py:56), used by the amendment
parser for amendment targets. -/
inductive DocumentPartType where
  | TOP
  | BOOK
  | TITLE
  | CHAPTER
  | SECTION
  | ARTICLE
deriving DecidableEq, Repr

/-! ## Header validator (`structured_document/utils/validator.py`)

The Python `Validator` object carries one piece of mutable state,
`last_valid_article_no`; it is modelled as `ValState` and threaded
explicitly. -/

/-- The `Validator`'s mutable state (validator.py:13). -/
structure ValState where
  lastValidArticleNo : Option (List Char)
deriving DecidableEq, Repr

/-- A fresh `Validator()`. -/
def ValState.init : ValState := ⟨none⟩

/-- `Validator._compare_roman_numerals` (validator.py:152): `second > first`
by position in `ROMAN_NUMERALS`; `ValueError` on `.index` yields `False`. -/
def compareRomanNumerals (first second : List Char) : Bool :=
  match romanIndex first, romanIndex second with
  | some fi, some si => si > fi
  | _, _ => false

/-- `Validator._is_valid_article_no` (validator.py:135).  Note the bare
`except: return True` around `int(curr) > int(prev)`: a current token that
parses as neither numeral system is accepted unconditionally. -/
def isValidArticleNoV (prev : Option (List Char)) (curr : List Char) : Bool :=
  match prev with
  | none => true
  | some p =>
      if isRomanNumeral p then
        if isRomanNumeral curr then compareRomanNumerals p curr else false
      else if isRomanNumeral curr then false
      else
        match pyInt curr, pyInt p with
        | some c, some pv => c > pv
        | _, _ => true

/-- `Validator._validate_book_header` (validator.py:31). -/
def validateBookHeader (header : List Char) : Bool :=
  let h := pyStrip header
  if h.length = 0 then false
  else
    match pySplitWs h with
    | [] => false
    | firstWord :: _ =>
        if !isRomanNumeral firstWord &&
           !(firstWord.length = 1 && firstWord.all pyIsAlpha) then false
        else if h.length > 500 then false
        else true

/-- `Validator._validate_title_header` (validator.py:53). -/
def validateTitleHeader (header : List Char) : Bool :=
  let h := pyStrip header
  match pySplitWs h with
  | [] => false
  | titleNo :: _ =>
      if titleNo ≠ "PRELIMINAR".data && !isRomanNumeral titleNo then false
      else true

/-- `Validator._validate_chapter_header` (validator.py:67). -/
def validateChapterHeader (header : List Char) : Bool :=
  let h := pyStrip header
  match pySplitWs h with
  | [] => false
  | firstWord :: _ =>
      if !isRomanNumeral firstWord then false
      else if h.length > 200 then false
      else true

/-- `Validator._validate_section_header` (validator.py:84).  The access
`words[1]` at line 95 is outside any `try` block and raises `IndexError`
when the header has a single word; the `try` only guards the `int` parse. -/
def validateSectionHeader (header : List Char) : Except PyErr Bool :=
  let h := pyStrip header
  match pySplitWs h with
  | [] => .ok false
  | w0 :: ws =>
      if w0 ≠ "a".data && w0 ≠ "1".data then .ok false
      else do
        let numberPart ← (
          if w0 ≠ "1".data then
            match ws with
            | [] => (.error .indexError : Except PyErr (Option (List Char)))
            | secondWord :: _ =>
                if !pyEndsWith secondWord "-a".data then pure none
                else pure (some (secondWord.take (secondWord.length - 2)))
          else pure (some w0))
        match numberPart with
        | none => .ok false
        | some np =>
            match pyInt np with
            | none => .ok false
            | some num =>
                if num ≤ 0 then .ok false
                else if h.length > 300 then .ok false
                else .ok true

/-- `Validator._validate_article` (validator.py:115): the candidate "number"
is the first chunk of the header row split on six spaces. -/
def validateArticleRow (v : ValState) (articleNameRow : List Char) : Bool :=
  let clean := pyStrip articleNameRow
  match pySplitOn clean "      ".data with
  | [] => false
  | artNo :: _ => isValidArticleNoV v.lastValidArticleNo artNo

/-- `Validator.validate_header` (validator.py:15), dispatching on the
element type; unknown types (`TOP`, `PART`) give `False`. -/
def validateHeader (v : ValState) (headerStr : List Char) (ty : ElementType) :
    Except PyErr Bool :=
  match ty with
  | .BOOK => .ok (validateBookHeader headerStr)
  | .TITLE => .ok (validateTitleHeader headerStr)
  | .CHAPTER => .ok (validateChapterHeader headerStr)
  | .SECTION => validateSectionHeader headerStr
  | .ARTICLE => .ok (validateArticleRow v headerStr)
  | _ => .ok false

/-! ## Text parsing (`structured_document/utils/text_parse.py`) -/

/-- The header record built by `_find_element_header` (text_parse.py:110). -/
structure Header where
  header : List Char
  elementStart : Nat
  titleStart : Nat
  titleEnd : Nat
deriving DecidableEq, Repr

/-- `_find_element_header` (text_parse.py:110). -/
def findElementHeader (text : List Char) (ty : ElementType) : Option Header :=
  match ty.toKeyword with
  | none => none
  | some keyword =>
      match pyFind text keyword with
      | none => none
      | some es =>
          let ts := es + keyword.length
          let fte :=
            match pyFind (text.drop ts) ['\n'] with
            | none => text.length
            | some p => ts + p
          some { header := pySliceNat text ts fte,
                 elementStart := es, titleStart := ts, titleEnd := fte }

/-- `_find_next_valid_header` (text_parse.py:84): skip-and-retry search for
the first occurrence of the type's keyword whose header line validates.
`fuel` bounds the recursion; `fuel = text.length + 1` always suffices since
every retry drops `element_start + len(keyword) ≥ 1` characters. -/
def findNextValidHeaderF : Nat → ValState → List Char → ElementType →
    Except PyErr (Option Header)
  | 0, _, _, _ => .ok none
  | fuel + 1, v, text, ty =>
      match findElementHeader text ty with
      | none => .ok none
      | some h => do
          let valid ← validateHeader v h.header ty
          if valid then .ok (some h)
          else
            let klen := (ty.toKeyword.map List.length).getD 0
            let skip := h.elementStart + klen
            let r ← findNextValidHeaderF fuel v (text.drop skip) ty
            match r with
            | none => .ok none
            | some h2 =>
                .ok (some { h2 with
                  elementStart := h2.elementStart + skip,
                  titleStart := h2.titleStart + skip,
                  titleEnd := h2.titleEnd + skip })

/-- Entry point for `_find_next_valid_header`. -/
def findNextValidHeader (v : ValState) (text : List Char) (ty : ElementType) :
    Except PyErr (Option Header) :=
  findNextValidHeaderF (text.length + 1) v text ty

/-- The `while` loop of `_find_element_end` (text_parse.py:73): pop types in
order; a found valid header returns its start; an exhausted list returns
`len(text)`; an initially empty list falls through (Python `None`). -/
def findElementEndLoop (v : ValState) (text : List Char) :
    List ElementType → Except PyErr (Option Nat)
  | [] => .ok none
  | t :: rest => do
      let h? ← findNextValidHeader v text t
      match h? with
      | some h => .ok (some h.elementStart)
      | none =>
          if rest.isEmpty then .ok (some text.length)
          else findElementEndLoop v text rest

/-- `_find_element_end` (text_parse.py:73). -/
def findElementEnd (v : ValState) (text : List Char) (ty : ElementType) :
    Except PyErr (Option Nat) :=
  findElementEndLoop v text ty.getPossibleEqualOrGreaterTypes

/-- Python `str.startswith(pat)`. -/
def pyStartsWith (t pat : List Char) : Bool :=
  pat.isPrefixOf t

/-- `_extract_book_number` (text_parse.py:168). -/
def extractBookNumber (header : List Char) : List Char :=
  let h := pyStrip header
  if h = [] then "0".data
  else
    match pySplitWs h with
    | [] => "0".data
    | firstWord :: _ =>
        match romanIndex firstWord with
        | some i => natToStrL (i + 1)
        | none =>
            if firstWord.length = 1 && firstWord.all pyIsAlpha then
              match firstWord with
              | c :: _ => natToStrL (c.toUpper.toNat - 'A'.toNat + 1)
              | [] => "0".data
            else "0".data

/-- `_extract_title_number` (text_parse.py:189): the first word verbatim. -/
def extractTitleNumber (header : List Char) : List Char :=
  let h := pyStrip header
  if h = [] then "0".data
  else
    match pySplitWs h with
    | [] => "0".data
    | firstWord :: _ => firstWord

/-- `_extract_chapter_number` (text_parse.py:204). -/
def extractChapterNumber (header : List Char) : List Char :=
  let h := pyStrip header
  if h = [] then "0".data
  else
    match pySplitWs h with
    | [] => "0".data
    | firstWord :: _ =>
        match romanIndex firstWord with
        | some i => natToStrL (i + 1)
        | none => "0".data

/-- `_extract_section_number` (text_parse.py:222). -/
def extractSectionNumber (header : List Char) : List Char :=
  let h := pyStrip header
  if h = [] then "0".data
  else
    match pySplitWs h with
    | [] => "0".data
    | firstWord :: ws =>
        let numberPart? :=
          if firstWord = "a".data && ws ≠ [] then
            match ws with
            | secondWord :: _ =>
                if pyEndsWith secondWord "-a".data then
                  some (secondWord.take (secondWord.length - 2))
                else none
            | [] => none
          else some firstWord
        match numberPart? with
        | none => "0".data
        | some np =>
            match pyInt np with
            | some num => if num > 0 then natToStrL num.toNat else "0".data
            | none => "0".data

/-- `_extract_article_number` (text_parse.py:253). -/
def extractArticleNumber (header : List Char) : List Char :=
  let h := pyStrip header
  if h = [] then "0".data
  else
    match pySplitWs h with
    | [] => "0".data
    | firstWord :: _ =>
        if isRomanNumeral firstWord then firstWord
        else
          match pyInt firstWord with
          | some num => if num > 0 then natToStrL num.toNat else "0".data
          | none => "0".data

/-- `_extract_number_from_header` (text_parse.py:138). -/
def extractNumberFromHeader (header : List Char) (ty : ElementType) : List Char :=
  match ty with
  | .BOOK => extractBookNumber header
  | .TITLE => extractTitleNumber header
  | .CHAPTER => extractChapterNumber header
  | .SECTION => extractSectionNumber header
  | .ARTICLE => extractArticleNumber header
  | _ => "0".data

/-- `_try_extract_article_title` (text_parse.py:278): rows split on five
spaces, sub-split on two spaces. -/
def tryExtractArticleTitle (rawText : List Char) : Option (List Char) :=
  let raw := pyStrip rawText
  if raw = [] then none
  else
    let rows := pySplitOn raw "     ".data
    if rows.length < 2 then none
    else
      match rows with
      | _ :: row1 :: rest =>
          let possibleTitle :=
            if rows.length = 2 then
              match pySplitOn row1 "  ".data with
              | alt0 :: _ => alt0
              | [] => row1
            else row1
          if pyStartsWith (pyStrip possibleTitle) "(".data then none
          else
            match rest with
            | row2 :: _ =>
                if !pyStartsWith (pyStrip row2) "(".data then none
                else some possibleTitle
            | [] => some possibleTitle
      | _ => none

/-- `DocumentElement` (element.py:10), restricted to the fields the build
populates (the `id`/`parent` bookkeeping is irrelevant to the claims). -/
structure Element where
  ty : ElementType
  number : List Char
  title : List Char
  startPos : Nat
  endPos : Nat
deriving DecidableEq, Repr

/-- The ad-hoc `element_draft` dict built inside `find_element`
(text_parse.py:41). -/
structure Draft where
  ty : ElementType
  header : List Char
  start : Nat
  endP : Nat
deriving DecidableEq, Repr

/-- The `while len(valid_types) > 0` loop of `find_element`
(text_parse.py:28-46): for each type take its first valid header, compute
the candidate's end, and keep the draft with the smallest absolute start
(`<`, so an earlier type wins ties).  Python evaluates
`e_end + offset + next_search_start` only when the draft is (re)placed, so a
`None` end (`TypeError`) is raised only there. -/
def findElementLoop (v : ValState) (text : List Char) (offset : Nat) :
    List ElementType → Option Draft → Except PyErr (Option Draft)
  | [], draft => .ok draft
  | t :: rest, draft => do
      let h? ← findNextValidHeader v text t
      match h? with
      | none => findElementLoop v text offset rest draft
      | some h =>
          let nextSearchStart := h.titleEnd
          let eEnd? ← findElementEnd v (text.drop nextSearchStart) t
          let replace :=
            match draft with
            | none => true
            | some d => h.elementStart + offset < d.start
          if replace then
            match eEnd? with
            | none => .error .typeError
            | some eEnd =>
                findElementLoop v text offset rest
                  (some { ty := t, header := h.header,
                          start := h.elementStart + offset,
                          endP := eEnd + offset + nextSearchStart })
          else findElementLoop v text offset rest draft

/-- `find_element` (text_parse.py:19): the selected draft is materialized
into a `DocumentElement`; for an `ARTICLE` the validator state records the
extracted number as `last_valid_article_no`. -/
def findElement (v : ValState) (text : List Char) (validTypes : List ElementType)
    (offset : Nat) : Except PyErr (Option Element × ValState) := do
  let draft? ← findElementLoop v text offset validTypes none
  match draft? with
  | none => .ok (none, v)
  | some d =>
      let number := extractNumberFromHeader d.header d.ty
      let title :=
        if d.ty = .ARTICLE then
          match tryExtractArticleTitle d.header with
          | some t => t
          | none => "N/A".data
        else d.header
      let v' := if d.ty = .ARTICLE then ValState.mk (some number) else v
      .ok (some { ty := d.ty, number := number, title := title,
                  startPos := d.start, endPos := d.endP }, v')

/-! ## Builder (`structured_document/builder.py`)

`builder.py` calls `TextParser.find_next_element`, but the `TextParser`
class is absent from the repository snapshot; per the spec (§4.3), the
builder's element search is the skip-and-retry/nearest-header algorithm
that `text_parse.find_element` implements.  Modelled from the spec:
`TextParser.find_next_element(text, valid_types, offset, preceding_text)`
delegates to `find_element` with the build's validator (the
`preceding_text` argument is always `None` in `builder.py`: `prev` is never
reassigned, so the branch constructing it is unreachable). -/

/-- The `while search_start < len(text)` loop of
`StructuredDocumentBuilder._build_element_structure` (builder.py:76):
`text` is the parent's slice; each found child is appended and the scan
resumes at its end; `valid_types` is recomputed from the child's type, cut
just after the parent's type (the `prev is None` branch is always taken).
`fuel = text.length + 1` always suffices: every iteration strictly
increases `search_start`. -/
def buildChildrenF : Nat → ValState → List Char → Nat → ElementType →
    List ElementType → Nat → Except PyErr (List Element × ValState)
  | 0, v, _, _, _, _, _ => .ok ([], v)
  | fuel + 1, v, text, parentStart, parentTy, validTypes, searchStart =>
      if searchStart < text.length then do
        let (el?, v') ← findElement v (text.drop searchStart) validTypes
                          (parentStart + searchStart)
        match el? with
        | none => .ok ([], v')
        | some el =>
            let vt1 := el.ty.getPossibleEqualOrGreaterTypes
            let vt2 :=
              match vt1.indexOf? parentTy with
              | some i => vt1.drop (i + 1)
              | none => vt1
            let (rest, v'') ← buildChildrenF fuel v' text parentStart parentTy
                                vt2 (el.endPos - parentStart)
            .ok (el :: rest, v'')
      else .ok ([], v)

/-- `_build_element_structure` for one parent (builder.py:76), returning the
children in order. -/
def buildChildren (v : ValState) (docText : List Char) (parent : Element) :
    Except PyErr (List Element × ValState) :=
  let text := pySliceNat docText parent.startPos parent.endPos
  buildChildrenF (text.length + 1) v text parent.startPos parent.ty
    parent.ty.getPossibleChildTypes 0

/-- The element tree a build produces. -/
inductive DocTree where
  | node (el : Element) (children : List DocTree)
deriving Repr

/-- Root element of a tree. -/
def DocTree.rootEl : DocTree → Element
  | .node el _ => el

/-- Children of a tree node. -/
def DocTree.childTrees : DocTree → List DocTree
  | .node _ ch => ch

/-- Sequential traversal of a child list with a supplied recursor for
non-`ARTICLE` children (`ARTICLE` children stay leaves, as
builder.py:65-67 never recurses into them), threading the validator
state. -/
def buildForestWith
    (buildOne : ValState → Element → Except PyErr (DocTree × ValState)) :
    ValState → List Element → Except PyErr (List DocTree × ValState)
  | v, [] => .ok ([], v)
  | v, el :: rest => do
      let (tree, v') ←
        if el.ty = .ARTICLE then
          (.ok (.node el [], v) : Except PyErr (DocTree × ValState))
        else buildOne v el
      let (trees, v'') ← buildForestWith buildOne v' rest
      .ok (tree :: trees, v'')

/-- `StructuredDocumentBuilder._find_elements_recursive` (builder.py:59):
build the element's children, then recurse into every non-`ARTICLE` child
(the `max_depth` bookkeeping, unused by any claim, is omitted).  `fuel = 7`
suffices from `TOP`: every child's type is strictly deeper than its
parent's, and the hierarchy has seven levels. -/
def buildRecF : Nat → ValState → List Char → Element →
    Except PyErr (DocTree × ValState)
  | 0, v, _, el => .ok (.node el [], v)
  | fuel + 1, v, docText, el => do
      let (children, v') ← buildChildren v docText el
      let (trees, v'') ←
        buildForestWith (fun vv e => buildRecF fuel vv docText e) v' children
      .ok (.node el trees, v'')

/-- `StructuredDocumentBuilder.create_structured_document` (builder.py:36)
restricted to the tree construction: the `TOP` element spans the whole text
(its title, immaterial to every claim, is left empty). -/
def buildDocument (docText : List Char) : Except PyErr DocTree :=
  let top : Element :=
    { ty := .TOP, number := "0".data, title := [],
      startPos := 0, endPos := docText.length }
  (buildRecF 7 ValState.init docText top).map (·.1)

/-- Modelled from the spec: the single-article shortcut of §4.3 step 7 (its
implementation lives in the `TextParser` class, absent from the snapshot) —
before the general scan, a span containing the literal keyword `"ARTICOL"`
yields one `ARTICLE` element numbered `"UNIC"` spanning keyword-to-end, and
the general algorithm is skipped for the span; otherwise the general
child-scan (builder.py:76 via `find_element`) runs. -/
def buildWithShortcut (docText : List Char) : Except PyErr (List Element) :=
  match pyFind docText "ARTICOL".data with
  | some i =>
      .ok [{ ty := .ARTICLE, number := "UNIC".data, title := "N/A".data,
             startPos := i, endPos := docText.length }]
  | none =>
      (buildChildrenF (docText.length + 1) ValState.init docText 0 .TOP
        ElementType.TOP.getPossibleChildTypes 0).map (·.1)

/-! ## Extractor (`structured_document/utils/extractor.py`) -/

/-- Python `str.join(" ", words)`. -/
def joinWords (ws : List (List Char)) : List Char :=
  (ws.intersperse " ".data).flatten

/-- `Extractor._is_additional_number` (extractor.py:274): composite
`base^addendum` numbers. -/
def isAdditionalNumber (number : List Char) : Option (List Char × List Char) :=
  match pyFind number "^".data with
  | none => none
  | some _ =>
      match pySplitOn number "^".data with
      | base :: second :: _ =>
          match pyInt second with
          | some n => some (base, natToStrL n.toNat)
          | none => none
      | _ => none

/-- `Extractor._validate_part_header` (extractor.py:69). -/
def extValidatePartHeader (header : List Char) : Option (List Char × List Char) :=
  if header.length > 150 then none
  else
    match pySplitWs header with
    | [] => none
    | firstWord :: ws =>
        if ws = [] && (firstWord = "SPECIALĂ".data || firstWord = "GENERALĂ".data) then
          some (firstWord, firstWord)
        else if isRomanNumeral firstWord then
          some (firstWord, joinWords ws)
        else if firstWord.length = 1 && firstWord.all pyIsAlpha then
          match ws with
          | [] => none
          | second :: rest => some (second, joinWords rest)
        else none

/-- `Extractor._validate_book_header` (extractor.py:96). -/
def extValidateBookHeader (header : List Char) : Option (List Char × List Char) :=
  if header.length > 250 then none
  else
    match pySplitWs header with
    | [] => none
    | firstWord :: ws =>
        if isRomanNumeral firstWord then
          some (firstWord, joinWords ws)
        else if firstWord.length = 1 && firstWord.all pyIsAlpha then
          match ws with
          | [] => none
          | second :: rest => some (second, joinWords rest)
        else none

/-- `Extractor._validate_title_header` (extractor.py:119). -/
def extValidateTitleHeader (header : List Char) : Option (List Char × List Char) :=
  if header.length > 500 then none
  else
    match pySplitWs header with
    | [] => none
    | firstWord :: ws =>
        if firstWord = "PRELIMINAR".data || isRomanNumeral firstWord ||
           (isAdditionalNumber firstWord).isSome then
          some (firstWord, joinWords ws)
        else none

/-- `Extractor._validate_chapter_header` (extractor.py:142). -/
def extValidateChapterHeader (header : List Char) : Option (List Char × List Char) :=
  if header.length > 250 then none
  else
    match pySplitWs header with
    | [] => none
    | number :: ws =>
        if !isRomanNumeral number then none
        else some (number, joinWords ws)

/-- `Extractor._validate_section_header` (extractor.py:161): unlike the
`Validator` twin, the `words[1]` access sits inside `try/except IndexError`
and degrades to `None`. -/
def extValidateSectionHeader (header : List Char) : Option (List Char × List Char) :=
  if header.length > 250 then none
  else
    match pySplitWs header with
    | [] => none
    | w0 :: ws =>
        if w0 ≠ "a".data && w0 ≠ "1".data then none
        else
          let numTitle? :=
            if w0 ≠ "1".data then
              match ws with
              | [] => none
              | secondWord :: rest =>
                  if !pyEndsWith secondWord "-a".data then none
                  else some (secondWord.take (secondWord.length - 2), joinWords rest)
            else some (w0, joinWords ws)
          match numTitle? with
          | none => none
          | some (number, title) =>
              match pyInt number with
              | none => none
              | some n => if n ≤ 0 then none else some (number, title)

/-- `Extractor._extract_article_number` (extractor.py:206): Roman numerals
pass through; an integer (dots stripped) must be positive; anything else is
`"N/A"`. -/
def extExtractArticleNumber (firstWord : List Char) : List Char :=
  if isRomanNumeral firstWord then firstWord
  else
    match pyInt (firstWord.filter (· ≠ '.')) with
    | some num => if num > 0 then natToStrL num.toNat else "N/A".data
    | none => "N/A".data

/-- `Extractor._is_valid_article_no` (extractor.py:221): same-system
comparison with `>=` for Arabic, strict `>` for Roman; any parse failure in
the Arabic branch (`except`) rejects. -/
def isValidArticleNoE (prev : Option (List Char)) (artNo : List Char) : Bool :=
  match prev with
  | none => true
  | some p =>
      if isRomanNumeral p then
        if isRomanNumeral artNo then compareRomanNumerals p artNo else false
      else if isRomanNumeral artNo then false
      else
        match pyInt artNo, pyInt p with
        | some c, some pv => c ≥ pv
        | _, _ => false

/-- `Extractor._try_extract_article_title` (extractor.py:251) — same
splitting as the `text_parse` twin but without the initial strip. -/
def extTryExtractArticleTitle (rawText : List Char) : Option (List Char) :=
  let rows := pySplitOn rawText "     ".data
  if rows.length < 2 then none
  else
    match rows with
    | _ :: row1 :: rest =>
        let possibleTitle :=
          if rows.length = 2 then
            match pySplitOn row1 "  ".data with
            | alt0 :: _ => alt0
            | [] => row1
          else row1
        if pyStartsWith (pyStrip possibleTitle) "(".data then none
        else
          match rest with
          | row2 :: _ =>
              if !pyStartsWith (pyStrip row2) "(".data then none
              else some possibleTitle
          | [] => some possibleTitle
    | _ => none

/-- `Extractor._validate_article` (extractor.py:193). -/
def extValidateArticle (lastValidArtNo : Option (List Char))
    (articleText : List Char) : Option (List Char × List Char) :=
  match pySplitWs articleText with
  | [] => none
  | p0 :: _ =>
      let artNo := extExtractArticleNumber p0
      if isValidArticleNoE lastValidArtNo artNo then
        let title := extTryExtractArticleTitle articleText
        some (artNo, match title with
                     | some t => if t = [] then "N/A".data else t
                     | none => "N/A".data)
      else none

/-- The fixed amendment-prose phrases of
`Extractor.validate_and_extract_header` (extractor.py:30), duplicate entry
included. -/
def refKeywords : List (List Char) :=
  [ "se modifică și va avea următorul cuprins:".data,
    "cu următoarea denumire:".data,
    "următorul cuprins:".data,
    "se modifică și va avea următorul cuprins:".data ]

/-- `Extractor.validate_and_extract_header` (extractor.py:14): `None`
header or empty header text rejects; a preceding-context window containing
any `refKeywords` phrase rejects before any structural validation; then the
per-type validation runs and a title starting with `"-"` rejects. -/
def validateAndExtractHeader (lastValidArtNo : Option (List Char))
    (headerText? : Option (List Char)) (ty : ElementType)
    (precedingText : Option (List Char)) : Option (List Char × List Char) :=
  match headerText? with
  | none => none
  | some headerString =>
      if headerString.length = 0 then none
      else
        let rejectedByContext :=
          match precedingText with
          | none => false
          | some pre =>
              let pre := pyStrip pre
              refKeywords.any (fun k => (pyFind pre k).isSome)
        if rejectedByContext then none
        else
          let validData :=
            match ty with
            | .PART => extValidatePartHeader headerString
            | .BOOK => extValidateBookHeader headerString
            | .TITLE => extValidateTitleHeader headerString
            | .CHAPTER => extValidateChapterHeader headerString
            | .SECTION => extValidateSectionHeader headerString
            | .ARTICLE => extValidateArticle lastValidArtNo headerString
            | .TOP => none
          match validData with
          | none => none
          | some (number, title) =>
              if pyStartsWith title "-".data then none
              else some (number, title)

/-- Modelled from the spec: the preceding-context window handed to the
filter by the (missing) `TextParser` — "up to ~50 characters immediately
before a header candidate's keyword occurrence" (§4.2). -/
def precedingWindow (text : List Char) (pos : Nat) : List Char :=
  (text.take pos).drop (pos - 50)

/-! ## Amendments (`document_amendments/amendment_parser.py`) -/

/-- A Python value that can sit in the `target_element_type` field: the
parser stores `DocumentPartType` enum members, while the query façade
compares the field against the string `DocumentElementType.ARTICLE.to_string()`
(structured_document.py:296).  Python `==` across an enum and a `str` is
always `False`. -/
inductive PyVal where
  | enumV (t : DocumentPartType)
  | strV (s : List Char)
deriving DecidableEq, Repr

/-- Python `==` on such values. -/
def pyValEq (a b : PyVal) : Bool := a = b

/-- `Amendment` (amendment_parser.py:16). -/
structure AmendmentRec where
  amendmentType : List Char
  sourceStr : List Char
  sourceUrl : Option (List Char)
  targetElementType : PyVal
  targetElementNo : Option (List Char)
deriving DecidableEq, Repr

/-- `AmendmentData` as defined in `amendment_parser.py:25` (this is the
class `structured_document.py` imports; unlike its twin in `amendment.py`
it has **no** `has_amendments` method). -/
structure ParserAmendmentData where
  amendments : List AmendmentRec
  isDocumentRepealed : Bool
deriving DecidableEq, Repr

/-- Python `str.lower()` restricted to ASCII (the normalized amendment
categories are ASCII). -/
def pyLowerAscii (t : List Char) : List Char :=
  t.map (fun c => if 'A' ≤ c && c ≤ 'Z' then Char.ofNat (c.toNat + 32) else c)

/-- Python `str.upper()` restricted to ASCII. -/
def pyUpperAscii (t : List Char) : List Char :=
  t.map (fun c => if 'a' ≤ c && c ≤ 'z' then Char.ofNat (c.toNat - 32) else c)

/-- `AmendmentParser._normalize_amendment_type` (amendment_parser.py:175). -/
def normalizeAmendmentType (rawType : List Char) : List Char :=
  let rawUpper := (pyStrip (pyUpperAscii rawType)).filter (· ≠ ' ')
  if rawUpper = "ABROGATDE".data then "repealed".data
  else if rawUpper = "ABROGATPARTIALDE".data then "partially repealed".data
  else if rawUpper = "MODIFICATDE".data then "amended".data
  else if rawUpper = "COMPLETATDE".data then "supplemented".data
  else if rawUpper = "SUSPENDATDE".data then "suspended".data
  else if rawUpper = "REPUBLICAT".data then "republished".data
  else if rawUpper = "INTRATINVIGOARE".data then "entered into force".data
  else if rawUpper = "RECTIFICATDE".data then "corrected".data
  else pyLowerAscii rawType

/-- Outcome of the network round-trip and HTML decode inside
`_parse_amendments` (amendment_parser.py:69).  The HTML-table walk of
`_parse_amendments_from_html` is abstracted at its output (a list of
`Amendment` records): its input is out-of-scope HTML from the remote
endpoint. -/
inductive FetchOutcome where
  | netError
  | okNoActe
  | okActe (amendments : List AmendmentRec)
deriving DecidableEq, Repr

/-- The Python value `get_amendment_data` actually returns: the empty dict
`{}` (both `except` fallbacks and the empty-URL guard), the implicit `None`
(response without an `"acte"` field), or an `AmendmentData` instance. -/
inductive AmendFetchRet where
  | dictEmpty
  | noneRet
  | amendData (d : ParserAmendmentData)
deriving DecidableEq, Repr

/-- `AmendmentParser._parse_amendments` (amendment_parser.py:69): a raised
network error is caught and `{}` returned (line 101); a JSON body without
`"acte"` only logs, falling off the end (`None`); otherwise the parsed
amendments are wrapped with the repeal flag computed at lines 87-91. -/
def parseAmendmentsModel (fetch : FetchOutcome) : AmendFetchRet :=
  match fetch with
  | .netError => .dictEmpty
  | .okNoActe => .noneRet
  | .okActe ams =>
      let isRepealed := ams.any (fun a =>
        pyLowerAscii a.amendmentType = "repealed".data &&
        pyValEq a.targetElementType (.enumV .TOP))
      .amendData { amendments := ams, isDocumentRepealed := isRepealed }

/-- `AmendmentParser.get_amendment_data` (amendment_parser.py:45): an empty
URL returns `{}` at once; otherwise the document id is split off the URL
and `_parse_amendments` runs under a catch-all `except` returning `{}`
(everything that can raise is already caught inside, so the function is
total). -/
def getAmendmentData (url : List Char) (fetch : FetchOutcome) : AmendFetchRet :=
  if url = [] then .dictEmpty
  else parseAmendmentsModel fetch

/-! ## Query façade (`structured_document/structured_document.py`) -/

/-- Association-list lookup modelling `dict.get(key, None)`. -/
def assocGet (m : List (List Char × List AmendmentRec)) (k : List Char) :
    Option (List AmendmentRec) :=
  match m with
  | [] => none
  | (k', vs) :: rest => if k' = k then some vs else assocGet rest k

/-- Association-list append modelling `map.append(amendment)` on the list
stored under `k` (creating it like structured_document.py:302-305). -/
def assocAppend (m : List (List Char × List AmendmentRec)) (k : List Char)
    (a : AmendmentRec) : List (List Char × List AmendmentRec) :=
  match m with
  | [] => [(k, [a])]
  | (k', vs) :: rest =>
      if k' = k then (k', vs ++ [a]) :: rest else (k', vs) :: assocAppend rest k a

/-- The mutable façade state relevant to `_get_amendments_for_article`:
`amendment_data` and the per-article memo map `art_amendment_map`
(structured_document.py:48-49). -/
structure FacadeState where
  amendmentData : Option ParserAmendmentData
  artAmendmentMap : List (List Char × List AmendmentRec)
deriving DecidableEq, Repr

/-- The attribute access `self.amendment_data.has_amendments()`
(structured_document.py:292).  `structured_document.py` imports
`AmendmentData` from `amendment_parser`, whose dataclass defines no
`has_amendments` method, so the call raises `AttributeError` (the method
exists only on the unrelated twin class in `amendment.py`). -/
def hasAmendmentsCall (_d : ParserAmendmentData) : Except PyErr Bool :=
  .error .attributeError

/-- `AmendmentData.has_amendments` as defined on the twin class
(amendment.py:23) — what line 292 would compute if the intended method were
in scope. -/
def hasAmendmentsGranted (d : ParserAmendmentData) : Bool :=
  d.amendments.length > 0

/-- The `for amendment in self.amendment_data.amendments` loop of
`_get_amendments_for_article` (structured_document.py:295-307): skip unless
`target_element_type == DocumentElementType.ARTICLE.to_string()` (an
enum-vs-string comparison) and the target number equals the article's;
append survivors to the memo entry. -/
def amendFilterLoop (m : List (List Char × List AmendmentRec))
    (artNo : List Char) : List AmendmentRec →
    List (List Char × List AmendmentRec)
  | [] => m
  | a :: rest =>
      if !pyValEq a.targetElementType (.strV "Articolul".data) then
        amendFilterLoop m artNo rest
      else if a.targetElementNo ≠ some artNo then
        amendFilterLoop m artNo rest
      else
        amendFilterLoop (assocAppend m artNo a) artNo rest

/-- `StructuredDocument._get_amendments_for_article`
(structured_document.py:285), faithful to the `has_amendments` attribute
error. -/
def getAmendmentsForArticle (st : FacadeState) (article : Element) :
    Except PyErr (List AmendmentRec × FacadeState) :=
  match assocGet st.artAmendmentMap article.number with
  | some memo => .ok (memo, st)
  | none =>
      match st.amendmentData with
      | none => .ok ([], st)
      | some d => do
          let hasA ← hasAmendmentsCall d
          if !hasA then .ok ([], st)
          else
            let m' := amendFilterLoop st.artAmendmentMap article.number d.amendments
            .ok ((assocGet m' article.number).getD [],
                 { st with artAmendmentMap := m' })

/-- `_get_amendments_for_article` as it would run were the intended
`has_amendments` (amendment.py:23) in scope — isolating the second defect,
the enum-vs-string type filter. -/
def getAmendmentsForArticleGranted (st : FacadeState) (article : Element) :
    List AmendmentRec × FacadeState :=
  match assocGet st.artAmendmentMap article.number with
  | some memo => (memo, st)
  | none =>
      match st.amendmentData with
      | none => ([], st)
      | some d =>
          if !hasAmendmentsGranted d then ([], st)
          else
            let m' := amendFilterLoop st.artAmendmentMap article.number d.amendments
            ((assocGet m' article.number).getD [],
             { st with artAmendmentMap := m' })

/-- The amendment list the claim (and spec §4.5) describes: the sublist of
`AmendmentData.amendments` whose target element type is `ARTICLE` and whose
target element number equals the article's number. -/
def specArticleAmendments (d : ParserAmendmentData) (artNo : List Char) :
    List AmendmentRec :=
  d.amendments.filter (fun a =>
    a.targetElementType = .enumV .ARTICLE && a.targetElementNo = some artNo)

/-- `StructuredDocument.get_text` (structured_document.py:186): a plain
slice of the document text (the `try/except` cannot fire — Python slicing
with integer bounds is total). -/
def getText (docText : List Char) (startPos endPos : Int) : List Char :=
  pySliceInt docText startPos endPos

/-- The searched slice built by `StructuredDocument.search_in_element`
(structured_document.py:166-167): `element_text` is the element's span,
then `text = element_text[start_pos:end_pos]` with defaults `start_pos = 0`,
`end_pos = -1`. -/
def searchInElementText (docText : List Char) (elStart elEnd : Nat)
    (startPos endPos : Int) : List Char :=
  let elementText := getText docText elStart elEnd
  pySliceInt elementText startPos endPos

/-! ## Fuzzy Romanian search (`api_client/utils.py`,
`document_search/content_search.py`) -/

/-- The `char_variations` dict (utils.py:84): the replacement is the whole
bracketed alternation string. -/
def charVariations (c : Char) : Option (List Char) :=
  if c = 'a' || c = 'ă' || c = 'â' then some "[aăâ]".data
  else if c = 'A' || c = 'Ă' || c = 'Â' then some "[AĂÂ]".data
  else if c = 'i' || c = 'î' then some "[iî]".data
  else if c = 'I' || c = 'Î' then some "[IÎ]".data
  else if c = 't' || c = 'ț' || c = 'ţ' then some "[tțţ]".data
  else if c = 'T' || c = 'Ț' || c = 'Ţ' then some "[TȚŢ]".data
  else if c = 's' || c = 'ș' || c = 'ş' then some "[sșş]".data
  else if c = 'S' || c = 'Ș' || c = 'Ş' then some "[SȘŞ]".data
  else none

/-- `re.escape(c)` (Python ≥ 3.7: everything except ASCII alphanumerics and
`_` gets a backslash). -/
def reEscapeChar (c : Char) : List Char :=
  if pyIsAlpha c || pyIsDigit c || c = '_' then [c] else ['\\', c]

/-- One word's pattern: per-character alternation or escaped literal
(utils.py:113-120 and 128-133 are the same computation). -/
def compileWordPattern (w : List Char) : List Char :=
  (w.map (fun c => (charVariations c).getD (reEscapeChar c))).flatten

/-- The bounded multi-word separator `r"(?:\s+\S+){0,50}?\s+"`
(utils.py:125). -/
def flexibleSeparator : List Char :=
  "(?:\\s+\\S+)\x7b0,50\x7d?\\s+".data

/-- `create_fuzzy_romanian_pattern` (utils.py:74). -/
def createFuzzyRomanianPattern (query : List Char) (allowPartialWords : Bool) :
    List Char :=
  if query = [] then query
  else if allowPartialWords then
    let words := pySplitWs (pyStrip query)
    let wordPatterns := words.map compileWordPattern
    match wordPatterns with
    | [p] => p
    | ps => (ps.intersperse flexibleSeparator).flatten
  else compileWordPattern query

/-- A token of the regex fragment the compiled patterns use: a literal
character or a character class. -/
inductive ReTok where
  | lit (c : Char)
  | cls (cs : List Char)
deriving DecidableEq, Repr

/-- Regex metacharacters that would need structure beyond literal/class
tokens; a pattern containing one unescaped does not parse here. -/
def reMeta (c : Char) : Bool :=
  c = '(' || c = ')' || c = '*' || c = '+' || c = '?' || c = '|' ||
  c = '^' || c = '$' || c = '.' || c = Char.ofNat 123 || c = Char.ofNat 125

/-- Parse a pattern string of literals, `\`-escapes and `[...]` classes
into tokens (`fuel = length` suffices: each step consumes ≥ 1 character). -/
def parseReTokF : Nat → List Char → Option (List ReTok)
  | _, [] => some []
  | 0, _ :: _ => none
  | fuel + 1, '[' :: rest =>
      let inside := rest.takeWhile (· ≠ ']')
      let remaining := rest.drop inside.length
      match remaining with
      | ']' :: rest' => (parseReTokF fuel rest').map (.cls inside :: ·)
      | _ => none
  | fuel + 1, '\\' :: c :: rest => (parseReTokF fuel rest).map (.lit c :: ·)
  | _ + 1, ['\\'] => none
  | fuel + 1, c :: rest =>
      if reMeta c then none
      else (parseReTokF fuel rest).map (.lit c :: ·)

/-- Pattern-string parser entry point. -/
def parseReTok (pat : List Char) : Option (List ReTok) :=
  parseReTokF pat.length pat

/-- The case folding `re.IGNORECASE` applies, on the alphabet this program
uses: ASCII letters plus the Romanian diacritic pairs. -/
def reFold (c : Char) : Char :=
  if 'A' ≤ c && c ≤ 'Z' then Char.ofNat (c.toNat + 32)
  else if c = 'Ă' then 'ă'
  else if c = 'Â' then 'â'
  else if c = 'Î' then 'î'
  else if c = 'Ț' then 'ț'
  else if c = 'Ţ' then 'ţ'
  else if c = 'Ș' then 'ș'
  else if c = 'Ş' then 'ş'
  else c

/-- One token against one character, case-insensitively. -/
def reTokMatch : ReTok → Char → Bool
  | .lit d, c => reFold d = reFold c
  | .cls ds, c => ds.any (fun d => reFold d = reFold c)

/-- A token list against a prefix of the text (each token consumes exactly
one character, as every compiled token here does). -/
def reToksMatchPref : List ReTok → List Char → Bool
  | [], _ => true
  | _ :: _, [] => false
  | tok :: toks, c :: cs => reTokMatch tok c && reToksMatchPref toks cs

/-- `re.finditer(pattern, text, re.IGNORECASE)` reports a match at index
`i` exactly when the pattern matches a prefix of `text[i:]`; this decides
that for the literal/class fragment. -/
def reMatchesAt (pat : List Char) (text : List Char) (i : Nat) : Bool :=
  match parseReTok pat with
  | none => false
  | some toks => reToksMatchPref toks (text.drop i)

/-! ## Statement-side definitions -/

/-- The first type in the given order whose skip-and-retry search finds a
valid header, with that header's start — the priority-order reading of
`_find_element_end` used to characterize it. -/
def firstValidHeaderStartByType (v : ValState) (text : List Char) :
    List ElementType → Except PyErr (Option Nat)
  | [] => .ok none
  | t :: rest => do
      let h? ← findNextValidHeader v text t
      match h? with
      | some h => .ok (some h.elementStart)
      | none => firstValidHeaderStartByType v text rest

/-- Claim C2's acceptance condition, transcribed from its words: the
candidate and the previous number compare in the *same* numbering system
(both Roman or both Arabic) and the candidate is `≥` the previous one. -/
def claimSameSystemGE (prev curr : List Char) : Bool :=
  (isRomanNumeral prev && isRomanNumeral curr &&
    (match romanIndex prev, romanIndex curr with
     | some pi, some ci => ci ≥ pi
     | _, _ => false)) ||
  (!isRomanNumeral prev && !isRomanNumeral curr &&
    (match pyInt prev, pyInt curr with
     | some pv, some c => c ≥ pv
     | _, _ => false))

/-- Bounds a draft selected by `findElementLoop` at a given offset over a
text of the given length. -/
def DraftOK (offset tlen : Nat) (d : Draft) : Prop :=
  offset ≤ d.start ∧ d.start < d.endP ∧ d.endP ≤ offset + tlen

/-- Consecutive spans chained inside `[lo, hi]`: each element starts no
earlier than `lo`, is non-degenerate, ends by `hi`, and the next element
starts no earlier than it ends. -/
def spansChained (lo hi : Nat) : List Element → Prop
  | [] => True
  | el :: rest =>
      lo ≤ el.startPos ∧ el.startPos < el.endPos ∧ el.endPos ≤ hi ∧
      spansChained el.endPos hi rest

/-- Claim C7's tree invariant: every child's half-open span is contained in
its parent's span, and siblings in child-list order have non-overlapping,
ordered spans (`child[i].end_pos ≤ child[j].start_pos` for `i < j`). -/
inductive TreeOK : DocTree → Prop where
  | node (el : Element) (ch : List DocTree)
      (contained : ∀ c ∈ ch,
        el.startPos ≤ (DocTree.rootEl c).startPos ∧
        (DocTree.rootEl c).endPos ≤ el.endPos)
      (ordered : (ch.map DocTree.rootEl).Pairwise
        (fun a b => a.endPos ≤ b.startPos))
      (subtrees : ∀ c ∈ ch, TreeOK c) :
      TreeOK (.node el ch)

/-! ## Concrete sample inputs used by the claims -/

/-- Claim C2's example text: a numeric decrease between two article
headers. -/
def c2Text : List Char := "Articolul 5\nfoo\nArticolul 3\nbar".data

/-- Claim C3's counterexample text: a valid `ARTICLE` header (position 2)
strictly before a valid `TITLE` header (position 16). -/
def c3Text : List Char := "x\nArticolul 9\ny\nTitlul II\n".data

/-- Claim C4's example text: the amendment-prose phrase immediately before
a chapter header. -/
def c4Text : List Char :=
  "Art. 5 se modifică și va avea următorul cuprins:\nCapitolul I\nDispoziții".data

/-- Claim C6's example text (spec §8). -/
def c6Text : List Char := "ARTICOL UNIC\n(1) Se aprobă...".data

/-- Claim C8's failing input: a section header whose first line is only the
word `"a"` (the section keyword is the exact mojibake literal of
`element.py`). -/
def c8Text : List Char := "SecÅ£iunea a".data

/-- Sample document for the build-invariant witnesses. -/
def c7Text : List Char := "Titlul I\nArticolul 1\n".data

/-- The tree `buildDocument c7Text` produces (fallback never taken). -/
def c7Tree : DocTree :=
  match buildDocument c7Text with
  | .ok t => t
  | .error _ => .node { ty := .TOP, number := "0".data, title := [],
                        startPos := 0, endPos := 0 } []

/-- An amendment record targeting article 5, as
`_parse_amendments_from_html` builds it (amendment_parser.py:159-165):
`target_element_type` holds the enum member `DocumentPartType.ARTICLE`. -/
def c1Amendment : AmendmentRec :=
  { amendmentType := "amended".data,
    sourceStr := "LEGE nr. 1".data,
    sourceUrl := none,
    targetElementType := .enumV .ARTICLE,
    targetElementNo := some "5".data }

/-- Façade state after a successful amendment fetch: one amendment for
article 5, empty memo map. -/
def c1State : FacadeState :=
  { amendmentData := some { amendments := [c1Amendment], isDocumentRepealed := false },
    artAmendmentMap := [] }

/-- The article element the query asks about. -/
def c1Article : Element :=
  { ty := .ARTICLE, number := "5".data, title := "N/A".data,
    startPos := 0, endPos := 10 }

/-- A document URL for the amendment-fetch claims. -/
def c5Url : List Char := "https://legislatie.just.ro/Public/DetaliiDocument/123".data

/-- The compiled fuzzy pattern for the query `"locatiune"` as `text_search`
(content_search.py:23) compiles it. -/
def locatiunePattern : List Char :=
  createFuzzyRomanianPattern "locatiune".data true

/-! # Helper lemmas -/

theorem exceptBind_ok {ε α β : Type} (a : α) (f : α → Except ε β) :
    (Except.ok a >>= f) = f a := rfl

theorem exceptBind_error {ε α β : Type} (e : ε) (f : α → Except ε β) :
    ((Except.error e : Except ε α) >>= f) = .error e := rfl

theorem exceptMap_ok {ε α β : Type} (a : α) (f : α → β) :
    (Except.ok a : Except ε α).map f = .ok (f a) := rfl

theorem exceptMap_error {ε α β : Type} (e : ε) (f : α → β) :
    (Except.error e : Except ε α).map f = .error e := rfl

theorem pySliceInt_zero_negOne (t : List Char) :
    pySliceInt t 0 (-1) = t.dropLast := by
  cases t with
  | nil => rfl
  | cons c cs =>
      show pySliceNat (c :: cs)
        (pySliceIdx (c :: cs).length 0) (pySliceIdx (c :: cs).length (-1)) = _
      have h0 : pySliceIdx (c :: cs).length 0 = 0 := by
        simp [pySliceIdx]
      have h1 : pySliceIdx (c :: cs).length (-1) = cs.length := by
        simp only [pySliceIdx, List.length_cons]
        norm_num
      rw [h0, h1]
      show ((c :: cs).take cs.length).drop 0 = _
      rw [List.drop_zero]
      have : (c :: cs).dropLast = (c :: cs).take ((c :: cs).length - 1) := by
        simp [List.dropLast_eq_take]
      simpa using this.symm

/-- A token list that matches a prefix keeps matching after appending. -/
theorem reToksMatchPref_append (toks : List ReTok) :
    ∀ v rest : List Char, reToksMatchPref toks v = true →
      reToksMatchPref toks (v ++ rest) = true := by
  induction toks with
  | nil => intro v rest _; rfl
  | cons tok toks ih =>
      intro v rest h
      cases v with
      | nil => simp [reToksMatchPref] at h
      | cons c cs =>
          simp only [reToksMatchPref, Bool.and_eq_true] at h ⊢
          exact ⟨h.1, ih cs rest h.2⟩

/-! # Claim theorems -/

/-- **C10** (confirmed).  `search_in_element` with its default
`end_pos = -1` searches `element_text[start_pos:-1]` — with the default
`start_pos = 0` this is the element's text with its final character
removed, so no reported match can include the element's last character;
and `get_text` with its default `end_pos = -1` likewise returns the
document text minus its last character. -/
theorem c10_default_end_excludes_last_char :
    (∀ (docText : List Char) (elStart elEnd : Nat),
      searchInElementText docText elStart elEnd 0 (-1)
        = (getText docText elStart elEnd).dropLast) ∧
    (∀ docText : List Char, getText docText 0 (-1) = docText.dropLast) :=
  ⟨fun _ _ _ => pySliceInt_zero_negOne _,
   fun docText => pySliceInt_zero_negOne docText⟩

/-- **C9** (confirmed).  The fuzzy pattern compiled for the query
`"locatiune"` maps each diacritic-class character to the alternation over
its whole class and the rest to escaped literals, and — matching
case-insensitively as `text_search` does — it matches every occurrence of
`"locațiune"`, `"locaţiune"` and `"LOCAȚIUNE"` in any searched text. -/
theorem c9_fuzzy_pattern_matches_diacritics :
    locatiunePattern = "loc[aăâ][tțţ][iî]une".data ∧
    ∀ pre post : List Char,
      reMatchesAt locatiunePattern (pre ++ "locațiune".data ++ post)
        pre.length = true ∧
      reMatchesAt locatiunePattern (pre ++ "locaţiune".data ++ post)
        pre.length = true ∧
      reMatchesAt locatiunePattern (pre ++ "LOCAȚIUNE".data ++ post)
        pre.length = true := by
  have hp : parseReTok locatiunePattern =
      some [ReTok.lit 'l', ReTok.lit 'o', ReTok.lit 'c',
            ReTok.cls ['a', 'ă', 'â'], ReTok.cls ['t', 'ț', 'ţ'],
            ReTok.cls ['i', 'î'], ReTok.lit 'u', ReTok.lit 'n',
            ReTok.lit 'e'] := by decide
  refine ⟨by decide, fun pre post => ⟨?_, ?_, ?_⟩⟩ <;>
    · simp only [reMatchesAt, hp, List.append_assoc, List.drop_left]
      exact reToksMatchPref_append _ _ post (by decide)

/-- **C5** counterexample.  On a network error, `get_amendment_data`
returns the empty dict `{}` — not an `AmendmentData` with an empty
amendments list and a false repeal flag, as the claim states. -/
theorem c5_counterexample_returns_empty_dict :
    getAmendmentData c5Url .netError = .dictEmpty ∧
    AmendFetchRet.dictEmpty ≠
      .amendData { amendments := [], isDocumentRepealed := false } := by
  decide

/-- **C5** (corrected).  On any network or parse error (or an empty URL),
`get_amendment_data` returns the falsy empty dict `{}`, or `None` when the
response merely lacks the `"acte"` field; no exception propagates (the
embedded function is total), but no `AmendmentData` instance is built. -/
theorem c5_amended_fails_open_to_falsy :
    ∀ (url : List Char) (fetch : FetchOutcome),
      fetch = .netError ∨ fetch = .okNoActe →
      getAmendmentData url fetch = .dictEmpty ∨
      getAmendmentData url fetch = .noneRet := by
  intro url fetch h
  by_cases hu : url = [] <;> rcases h with h | h <;>
    simp [getAmendmentData, parseAmendmentsModel, hu, h]

/-- **C5** witness: the amended statement at a concrete input. -/
theorem c5_amended_fails_open_to_falsy_witness :
    getAmendmentData c5Url .netError = .dictEmpty ∨
    getAmendmentData c5Url .netError = .noneRet :=
  c5_amended_fails_open_to_falsy c5Url .netError (Or.inl rfl)

/-- **C1** (code bug).  With one fetched amendment targeting article `"5"`
and `get_article("5")` asked for the first time, the claimed behaviour —
return the sublist of `AmendmentData.amendments` targeting `ARTICLE` number
`"5"` — does not happen: the code raises `AttributeError`
(`structured_document.py:292` calls `has_amendments()` on the
`amendment_parser.AmendmentData` dataclass, which has no such method), and
even granting the twin class's method, the filter at line 296 compares the
enum `DocumentPartType.ARTICLE` against the string `"Articolul"`, never
matches, and returns `[]` instead of the one matching amendment. -/
theorem c1_article_amendments_defect :
    getAmendmentsForArticle c1State c1Article = .error .attributeError ∧
    (getAmendmentsForArticleGranted c1State c1Article).1 = [] ∧
    specArticleAmendments
      { amendments := [c1Amendment], isDocumentRepealed := false }
      "5".data = [c1Amendment] ∧
    [c1Amendment] ≠ ([] : List AmendmentRec) := by
  decide

/-- **C8** (code bug).  On the input `"SecÅ£iunea a"` — a section header
whose first line is only the word `"a"`, which the claim names as an input
the builder survives — `Validator._validate_section_header` evaluates
`words[1]` (validator.py:95, outside the `try`) and the `IndexError`
escapes the whole build; the empty document, by contrast, builds fine. -/
theorem c8_section_header_raises_index_error :
    findNextValidHeader ValState.init c8Text .SECTION = .error .indexError ∧
    buildDocument c8Text = .error .indexError ∧
    buildDocument [] =
      .ok (.node { ty := .TOP, number := "0".data, title := [],
                   startPos := 0, endPos := 0 } []) := by
  refine ⟨by decide, ?_, ?_⟩ <;> rfl

/-- **C6** (confirmed, spec-modelled).  A span containing the literal
keyword `"ARTICOL"` yields exactly one `ARTICLE` element numbered `"UNIC"`
spanning keyword-to-end, skipping the general scan; in particular the
spec's example text produces exactly that single element. -/
theorem c6_single_article_shortcut :
    (∀ (text : List Char) (i : Nat), pyFind text "ARTICOL".data = some i →
      buildWithShortcut text =
        .ok [{ ty := .ARTICLE, number := "UNIC".data, title := "N/A".data,
               startPos := i, endPos := text.length }]) ∧
    buildWithShortcut c6Text =
      .ok [{ ty := .ARTICLE, number := "UNIC".data, title := "N/A".data,
             startPos := 0, endPos := 29 }] := by
  constructor
  · intro text i h
    simp [buildWithShortcut, h]
  · decide

/-- **C6** witness: the shortcut theorem applied at the spec's example
text. -/
theorem c6_single_article_shortcut_witness :
    buildWithShortcut c6Text =
      .ok [{ ty := .ARTICLE, number := "UNIC".data, title := "N/A".data,
             startPos := 0, endPos := 29 }] := by
  have h := c6_single_article_shortcut.1 c6Text 0 (by decide)
  simpa using h

/-- **C4** (confirmed).  A header candidate whose preceding-context window
contains one of the fixed amendment-prose phrases is rejected regardless of
element type or structural content — the filter runs before structural
validation; concretely, with `"se modifică și va avea următorul cuprins:"`
immediately before `"Capitolul I"` (keyword occurrence at offset 49 of
`c4Text`, window = the ≤ 50 preceding characters), the CHAPTER candidate is
rejected, although the same header is accepted without that context. -/
theorem c4_preceding_context_filter :
    (∀ (lastNo : Option (List Char)) (hdr : List Char) (ty : ElementType)
       (pre : List Char),
      refKeywords.any (fun k => (pyFind (pyStrip pre) k).isSome) = true →
      validateAndExtractHeader lastNo (some hdr) ty (some pre) = none) ∧
    pyFind c4Text "Capitolul".data = some 49 ∧
    validateAndExtractHeader none (some " I".data) .CHAPTER
      (some (precedingWindow c4Text 49)) = none ∧
    validateAndExtractHeader none (some " I".data) .CHAPTER none ≠ none := by
  refine ⟨?_, by decide, by decide, by decide⟩
  intro lastNo hdr ty pre h
  by_cases hl : hdr.length = 0
  · simp [validateAndExtractHeader, hl]
  · simp [validateAndExtractHeader, hl, h]

/-- **C4** witness: the filter theorem applied at the concrete window. -/
theorem c4_preceding_context_filter_witness :
    validateAndExtractHeader (some "1".data) (some " I".data) .CHAPTER
      (some (precedingWindow c4Text 49)) = none :=
  c4_preceding_context_filter.1 (some "1".data) " I".data .CHAPTER
    (precedingWindow c4Text 49) (by decide)

/-- **C2** counterexample.  After accepted article `"5"`, the candidate
token `"5a"` — Roman in neither system, unparsable as an integer — is
*accepted* by `Validator._is_valid_article_no` (the bare `except: return
True`), refuting "accepted only if ≥ the previous number in the same
numbering system". -/
theorem c2_counterexample_unparsable_accepted :
    claimSameSystemGE "5".data "5a".data = false ∧
    isValidArticleNoV (some "5".data) "5a".data = true ∧
    isRomanNumeral "5a".data = false ∧
    pyInt "5a".data = none := by
  decide

/-- **C2** (corrected).  The validator accepts a candidate after `prev`
only when both numbers are Roman and the candidate's index is strictly
greater, or neither is Roman and — whenever both parse as integers — the
candidate is strictly greater (an unparsable side is accepted
unconditionally); a Roman-vs-Arabic mismatch is always rejected; and on
`"Articolul 5 … Articolul 3"` the build materializes exactly one
`ARTICLE("5")`. -/
theorem c2_amended_monotonic_article_check :
    (∀ p curr : List Char, isValidArticleNoV (some p) curr = true →
      (isRomanNumeral p = true ∧ isRomanNumeral curr = true ∧
        compareRomanNumerals p curr = true) ∨
      (isRomanNumeral p = false ∧ isRomanNumeral curr = false ∧
        ∀ c pv : Int, pyInt curr = some c → pyInt p = some pv → pv < c)) ∧
    (∀ p curr : List Char, isRomanNumeral p ≠ isRomanNumeral curr →
      isValidArticleNoV (some p) curr = false) ∧
    buildDocument c2Text =
      .ok (.node { ty := .TOP, number := "0".data, title := [],
                   startPos := 0, endPos := 31 }
        [.node { ty := .ARTICLE, number := "5".data, title := "N/A".data,
                 startPos := 0, endPos := 16 } []]) := by
  refine ⟨?_, ?_, by rfl⟩
  · intro p curr h
    by_cases hp : isRomanNumeral p = true
    · by_cases hc : isRomanNumeral curr = true
      · refine Or.inl ⟨hp, hc, ?_⟩
        simpa [isValidArticleNoV, hp, hc] using h
      · exfalso
        simp [isValidArticleNoV, hp, hc] at h
    · by_cases hc : isRomanNumeral curr = true
      · exfalso
        simp [isValidArticleNoV, hp, hc] at h
      · refine Or.inr ⟨by simpa using hp, by simpa using hc, ?_⟩
        intro c pv hc' hp'
        simp only [isValidArticleNoV, hp, hc] at h
        rw [hc', hp'] at h
        simpa using h
  · intro p curr h
    by_cases hp : isRomanNumeral p = true <;>
      by_cases hc : isRomanNumeral curr = true <;>
      simp [hp, hc] at h <;>
      simp [isValidArticleNoV, hp, hc]

/-- **C2** witness: the amended statement's mismatch clause at the claim's
own example — a Roman `"III"` after the Arabic `"5"` is rejected. -/
theorem c2_amended_monotonic_article_check_witness :
    isValidArticleNoV (some "5".data) "III".data = false :=
  c2_amended_monotonic_article_check.2.1 "5".data "III".data (by decide)

/-- **C3** counterexample.  For an `ARTICLE` element, `_find_element_end`
returns 16 — the start of the valid `TITLE` header — although a valid
header of an equal-or-greater type (`ARTICLE` itself, at offset 2) sits
strictly earlier in text order, refuting "the nearest one in text
order". -/
theorem c3_counterexample_not_nearest :
    findElementEnd ValState.init c3Text .ARTICLE = .ok (some 16) ∧
    findNextValidHeader ValState.init c3Text .ARTICLE =
      .ok (some { header := " 9".data, elementStart := 2,
                  titleStart := 11, titleEnd := 13 }) ∧
    (2 : Nat) < 16 := by
  decide

/-- The `_find_element_end` loop equals the priority-order search: the
first type (in the given order) with any valid header wins, else
end-of-span. -/
theorem findElementEndLoop_eq_priority (v : ValState) (text : List Char) :
    ∀ l : List ElementType, l ≠ [] →
      findElementEndLoop v text l =
        (firstValidHeaderStartByType v text l).map
          (fun o => some (o.getD text.length)) := by
  intro l
  induction l with
  | nil => intro h; exact absurd rfl h
  | cons t rest ih =>
      intro _
      cases h : findNextValidHeader v text t with
      | error e =>
          simp [findElementEndLoop, firstValidHeaderStartByType, h,
            exceptBind_error, exceptMap_error]
      | ok h? =>
          cases h? with
          | some hh =>
              simp [findElementEndLoop, firstValidHeaderStartByType, h,
                exceptBind_ok, exceptMap_ok]
          | none =>
              cases hr : rest with
              | nil =>
                  simp [findElementEndLoop, firstValidHeaderStartByType, h,
                    exceptBind_ok, exceptMap_ok]
              | cons r rs =>
                  have ihr := ih (by simp [hr])
                  simp only [findElementEndLoop, firstValidHeaderStartByType,
                    h, exceptBind_ok, hr] at ihr ⊢
                  simpa using ihr

/-- **C3** (corrected).  A child's end is the start of the first valid
header found when the equal-or-greater types are scanned in hierarchy
order `TOP → … → own type` — the first *type* with any valid header wins,
not the nearest header in text order — or end-of-parent-span when no type
has one. -/
theorem c3_amended_end_is_first_by_type_priority :
    ∀ (v : ValState) (text : List Char) (ty : ElementType), ty ≠ .TOP →
      findElementEnd v text ty =
        (firstValidHeaderStartByType v text
          ty.getPossibleEqualOrGreaterTypes).map
          (fun o => some (o.getD text.length)) := by
  intro v text ty hty
  apply findElementEndLoop_eq_priority
  cases ty <;> first
    | exact absurd rfl hty
    | decide

/-- **C3** witness: the characterization at the counterexample input. -/
theorem c3_amended_end_is_first_by_type_priority_witness :
    findElementEnd ValState.init c3Text .ARTICLE =
      (firstValidHeaderStartByType ValState.init c3Text
        ElementType.ARTICLE.getPossibleEqualOrGreaterTypes).map
        (fun o => some (o.getD c3Text.length)) :=
  c3_amended_end_is_first_by_type_priority ValState.init c3Text .ARTICLE
    (by decide)

/-! ## Position bounds through the parsing pipeline (towards C7) -/

/-- A found occurrence fits inside the text. -/
theorem pyFind_bound (pat : List Char) :
    ∀ (t : List Char) (i : Nat), pyFind t pat = some i →
      i + pat.length ≤ t.length := by
  intro t
  induction t with
  | nil =>
      intro i h
      unfold pyFind at h
      split at h
      · next hp =>
          cases h
          have hpre : pat <+: ([] : List Char) :=
            List.isPrefixOf_iff_prefix.mp hp
          simpa using hpre.length_le
      · simp at h
  | cons c cs ih =>
      intro i h
      unfold pyFind at h
      split at h
      · next hp =>
          cases h
          have hpre : pat <+: c :: cs := List.isPrefixOf_iff_prefix.mp hp
          simpa using hpre.length_le
      · simp only [] at h
        cases hf : pyFind cs pat with
        | none => rw [hf] at h; simp at h
        | some j =>
            rw [hf] at h
            simp only [Option.map_some'] at h
            cases h
            have := ih j hf
            simp only [List.length_cons]
            omega

/-- Every non-`TOP` keyword is non-empty. -/
theorem toKeyword_len (ty : ElementType) (k : List Char)
    (h : ty.toKeyword = some k) : 1 ≤ k.length := by
  cases ty <;> simp [ElementType.toKeyword] at h <;> simp [← h]

/-- A non-`TOP` type has a keyword whenever `findElementHeader`
succeeds. -/
theorem findElementHeader_keyword (text : List Char) (ty : ElementType)
    (h : Header) (hf : findElementHeader text ty = some h) :
    ∃ k, ty.toKeyword = some k := by
  unfold findElementHeader at hf
  cases hk : ty.toKeyword with
  | none => rw [hk] at hf; simp at hf
  | some k => exact ⟨k, rfl⟩

/-- Header positions returned by `findElementHeader` are in bounds and the
title line ends strictly after the keyword occurrence starts. -/
theorem findElementHeader_bounds (text : List Char) (ty : ElementType)
    (h : Header) (k : List Char) (hk : ty.toKeyword = some k)
    (hf : findElementHeader text ty = some h) :
    h.elementStart + k.length ≤ text.length ∧
    h.elementStart + 1 ≤ h.titleEnd ∧ h.titleEnd ≤ text.length := by
  unfold findElementHeader at hf
  rw [hk] at hf
  simp only [] at hf
  cases hp : pyFind text k with
  | none => rw [hp] at hf; simp at hf
  | some es =>
      rw [hp] at hf
      simp only [] at hf
      have hb := pyFind_bound k text es hp
      have hk1 := toKeyword_len ty k hk
      cases hn : pyFind (text.drop (es + k.length)) ['\n'] with
      | none =>
          rw [hn] at hf
          simp only [] at hf
          cases hf
          refine ⟨hb, ?_, ?_⟩ <;> dsimp only <;> omega
      | some p =>
          rw [hn] at hf
          simp only [] at hf
          have hb2 := pyFind_bound ['\n'] (text.drop (es + k.length)) p hn
          rw [List.length_drop] at hb2
          simp only [List.length_singleton] at hb2
          cases hf
          refine ⟨hb, ?_, ?_⟩
          · show es + 1 ≤ es + k.length + p
            omega
          · show es + k.length + p ≤ text.length
            omega

/-- Headers found by the skip-and-retry search stay in bounds. -/
theorem findNextValidHeaderF_bounds :
    ∀ (fuel : Nat) (v : ValState) (text : List Char) (ty : ElementType)
      (h : Header),
      findNextValidHeaderF fuel v text ty = .ok (some h) →
      h.elementStart + 1 ≤ h.titleEnd ∧ h.titleEnd ≤ text.length := by
  intro fuel
  induction fuel with
  | zero =>
      intro v text ty h hf
      simp [findNextValidHeaderF] at hf
  | succ fuel ih =>
      intro v text ty h hf
      unfold findNextValidHeaderF at hf
      cases hh : findElementHeader text ty with
      | none => rw [hh] at hf; simp at hf
      | some h0 =>
          rw [hh] at hf
          simp only [] at hf
          obtain ⟨k, hk⟩ := findElementHeader_keyword text ty h0 hh
          have hb0 := findElementHeader_bounds text ty h0 k hk hh
          cases hv : validateHeader v h0.header ty with
          | error e => rw [hv] at hf; simp [exceptBind_error] at hf
          | ok b =>
              rw [hv] at hf
              rw [exceptBind_ok] at hf
              cases b with
              | true =>
                  simp only [if_true] at hf
                  cases hf
                  exact ⟨hb0.2.1, hb0.2.2⟩
              | false =>
                  simp only [Bool.false_eq_true, if_false, hk,
                    Option.map_some', Option.getD_some] at hf
                  cases hr : findNextValidHeaderF fuel v
                      (text.drop (h0.elementStart + k.length)) ty with
                  | error e => rw [hr] at hf; simp [exceptBind_error] at hf
                  | ok r? =>
                      rw [hr, exceptBind_ok] at hf
                      cases r? with
                      | none => simp at hf
                      | some h2 =>
                          simp only at hf
                          cases hf
                          have hb2 := ih v
                            (text.drop (h0.elementStart + k.length)) ty h2 hr
                          rw [List.length_drop] at hb2
                          constructor
                          · simp; omega
                          · simp; omega

/-- The skip-and-retry entry point keeps headers in bounds. -/
theorem findNextValidHeader_bounds (v : ValState) (text : List Char)
    (ty : ElementType) (h : Header)
    (hf : findNextValidHeader v text ty = .ok (some h)) :
    h.elementStart + 1 ≤ h.titleEnd ∧ h.titleEnd ≤ text.length :=
  findNextValidHeaderF_bounds (text.length + 1) v text ty h hf

/-- `_find_element_end` never returns a position past the end of its
text. -/
theorem findElementEndLoop_le (v : ValState) (text : List Char) :
    ∀ (l : List ElementType) (e : Nat),
      findElementEndLoop v text l = .ok (some e) → e ≤ text.length := by
  intro l
  induction l with
  | nil => intro e h; simp [findElementEndLoop] at h
  | cons t rest ih =>
      intro e h
      unfold findElementEndLoop at h
      cases hh : findNextValidHeader v text t with
      | error e' => rw [hh] at h; simp [exceptBind_error] at h
      | ok h? =>
          rw [hh, exceptBind_ok] at h
          cases h? with
          | some hh2 =>
              simp only at h
              cases h
              have := findNextValidHeader_bounds v text t hh2 hh
              omega
          | none =>
              simp only at h
              split at h
              · cases h; exact Nat.le_refl _
              · exact ih e h

/-- Any draft selected by the `find_element` loop is in bounds, provided
the incoming accumulator is. -/
theorem findElementLoop_bounds (v : ValState) (text : List Char)
    (offset : Nat) :
    ∀ (tys : List ElementType) (acc : Option Draft) (d : Draft),
      (∀ d0, acc = some d0 → DraftOK offset text.length d0) →
      findElementLoop v text offset tys acc = .ok (some d) →
      DraftOK offset text.length d := by
  intro tys
  induction tys with
  | nil =>
      intro acc d hacc h
      simp only [findElementLoop] at h
      cases h
      exact hacc d rfl
  | cons t rest ih =>
      intro acc d hacc h
      unfold findElementLoop at h
      cases hh : findNextValidHeader v text t with
      | error e => rw [hh] at h; simp [exceptBind_error] at h
      | ok h? =>
          rw [hh, exceptBind_ok] at h
          cases h? with
          | none => exact ih acc d hacc h
          | some hd =>
              simp only [] at h
              have hhb := findNextValidHeader_bounds v text t hd hh
              cases he : findElementEnd v (text.drop hd.titleEnd) t with
              | error e => rw [he] at h; simp [exceptBind_error] at h
              | ok eEnd? =>
                  rw [he, exceptBind_ok] at h
                  split at h
                  · cases eEnd? with
                    | none => simp at h
                    | some eEnd =>
                        simp only [] at h
                        have hle := findElementEndLoop_le v
                          (text.drop hd.titleEnd)
                          t.getPossibleEqualOrGreaterTypes eEnd he
                        rw [List.length_drop] at hle
                        refine ih _ d ?_ h
                        intro d0 hd0
                        cases hd0
                        refine ⟨?_, ?_, ?_⟩
                        · show offset ≤ hd.elementStart + offset
                          omega
                        · show hd.elementStart + offset <
                            eEnd + offset + hd.titleEnd
                          omega
                        · show eEnd + offset + hd.titleEnd ≤
                            offset + text.length
                          omega
                  · exact ih acc d hacc h

/-- `find_element` returns an element whose span starts at or after the
offset, is non-degenerate, and ends within the text handed to it. -/
theorem findElement_bounds (v : ValState) (text : List Char)
    (tys : List ElementType) (offset : Nat) (el : Element) (v' : ValState)
    (h : findElement v text tys offset = .ok (some el, v')) :
    offset ≤ el.startPos ∧ el.startPos < el.endPos ∧
    el.endPos ≤ offset + text.length := by
  unfold findElement at h
  cases hd : findElementLoop v text offset tys none with
  | error e => rw [hd] at h; simp [exceptBind_error] at h
  | ok d? =>
      rw [hd, exceptBind_ok] at h
      cases d? with
      | none => simp at h
      | some d =>
          have hb := findElementLoop_bounds v text offset tys none d
            (by intro d0 hd0; cases hd0) hd
          simp only [] at h
          cases h
          exact hb

/-- The children emitted by the builder loop are chained between the scan
start and the end of the parent's slice. -/
theorem buildChildrenF_chained :
    ∀ (fuel : Nat) (v : ValState) (text : List Char) (pStart : Nat)
      (pTy : ElementType) (vt : List ElementType) (ss : Nat)
      (ch : List Element) (v' : ValState),
      buildChildrenF fuel v text pStart pTy vt ss = .ok (ch, v') →
      spansChained (pStart + ss) (pStart + text.length) ch := by
  intro fuel
  induction fuel with
  | zero =>
      intro v text pStart pTy vt ss ch v' h
      simp only [buildChildrenF] at h
      cases h
      trivial
  | succ fuel ih =>
      intro v text pStart pTy vt ss ch v' h
      unfold buildChildrenF at h
      split at h
      · next hss =>
          cases hfe : findElement v (text.drop ss) vt (pStart + ss) with
          | error e => rw [hfe] at h; simp [exceptBind_error] at h
          | ok pr =>
              obtain ⟨el?, v1⟩ := pr
              rw [hfe, exceptBind_ok] at h
              cases el? with
              | none =>
                  simp only [] at h
                  cases h
                  trivial
              | some el =>
                  simp only [] at h
                  have hb := findElement_bounds v (text.drop ss) vt
                    (pStart + ss) el v1 hfe
                  rw [List.length_drop] at hb
                  cases hrest : buildChildrenF fuel v1 text pStart pTy
                      (match el.ty.getPossibleEqualOrGreaterTypes.indexOf? pTy with
                       | some i => el.ty.getPossibleEqualOrGreaterTypes.drop (i + 1)
                       | none => el.ty.getPossibleEqualOrGreaterTypes)
                      (el.endPos - pStart) with
                  | error e => rw [hrest] at h; simp [exceptBind_error] at h
                  | ok pr2 =>
                      obtain ⟨rest, v2⟩ := pr2
                      rw [hrest, exceptBind_ok] at h
                      simp only [] at h
                      cases h
                      have hch := ih v1 text pStart pTy _ _ rest _ hrest
                      have hstart : pStart + (el.endPos - pStart) = el.endPos := by
                        omega
                      rw [hstart] at hch
                      exact ⟨by omega, hb.2.1, by omega, hch⟩
      · cases h
        trivial

/-- Elements of a chained list are individually bounded. -/
theorem spansChained_mem :
    ∀ (l : List Element) (lo hi : Nat) (el : Element),
      spansChained lo hi l → el ∈ l →
      lo ≤ el.startPos ∧ el.startPos < el.endPos ∧ el.endPos ≤ hi := by
  intro l
  induction l with
  | nil => intro lo hi el _ hm; cases hm
  | cons x xs ih =>
      intro lo hi el hc hm
      obtain ⟨h1, h2, h3, hrest⟩ := hc
      cases hm with
      | head => exact ⟨h1, h2, h3⟩
      | tail _ hm' =>
          have := ih x.endPos hi el hrest hm'
          exact ⟨by omega, this.2.1, this.2.2⟩

/-- A chained list is pairwise ordered: earlier elements end before later
elements start. -/
theorem spansChained_pairwise :
    ∀ (l : List Element) (lo hi : Nat), spansChained lo hi l →
      l.Pairwise (fun a b => a.endPos ≤ b.startPos) := by
  intro l
  induction l with
  | nil => intro lo hi _; exact List.Pairwise.nil
  | cons x xs ih =>
      intro lo hi hc
      obtain ⟨_, _, _, hrest⟩ := hc
      refine List.Pairwise.cons ?_ (ih x.endPos hi hrest)
      intro b hb
      exact (spansChained_mem xs x.endPos hi b hrest hb).1

/-- A chained list remains chained when the upper bound is relaxed. -/
theorem spansChained_hi_mono :
    ∀ (l : List Element) (lo hi hi' : Nat), hi ≤ hi' →
      spansChained lo hi l → spansChained lo hi' l := by
  intro l
  induction l with
  | nil => intro _ _ _ _ _; trivial
  | cons x xs ih =>
      intro lo hi hi' hle hc
      obtain ⟨h1, h2, h3, hrest⟩ := hc
      exact ⟨h1, h2, by omega, ih x.endPos hi hi' hle hrest⟩

/-- A slice is no longer than the requested width. -/
theorem pySliceNat_length_le (t : List Char) (a b : Nat) :
    (pySliceNat t a b).length ≤ b - a := by
  unfold pySliceNat
  rw [List.length_drop, List.length_take]
  omega

/-- The tree built for an element is rooted at that element. -/
theorem buildRecF_rootEl :
    ∀ (fuel : Nat) (v : ValState) (docText : List Char) (el : Element)
      (tr : DocTree) (v' : ValState),
      buildRecF fuel v docText el = .ok (tr, v') → tr.rootEl = el := by
  intro fuel
  cases fuel with
  | zero =>
      intro v docText el tr v' h
      simp only [buildRecF] at h
      cases h
      rfl
  | succ fuel =>
      intro v docText el tr v' h
      unfold buildRecF at h
      cases hch : buildChildren v docText el with
      | error e => rw [hch] at h; simp [exceptBind_error] at h
      | ok pr =>
          obtain ⟨children, v1⟩ := pr
          rw [hch, exceptBind_ok] at h
          simp only [] at h
          cases hfo : buildForestWith
              (fun vv e => buildRecF fuel vv docText e) v1 children with
          | error e => rw [hfo] at h; simp [exceptBind_error] at h
          | ok pr2 =>
              obtain ⟨trees, v2⟩ := pr2
              rw [hfo, exceptBind_ok] at h
              simp only [] at h
              cases h
              rfl

/-- The forest built over a child list is rooted at exactly those
children, provided the recursor preserves roots. -/
theorem buildForestWith_roots
    (buildOne : ValState → Element → Except PyErr (DocTree × ValState))
    (hb1 : ∀ v e tr v', buildOne v e = .ok (tr, v') → tr.rootEl = e) :
    ∀ (els : List Element) (v : ValState) (trs : List DocTree)
      (v' : ValState),
      buildForestWith buildOne v els = .ok (trs, v') →
      trs.map DocTree.rootEl = els := by
  intro els
  induction els with
  | nil =>
      intro v trs v' h
      simp only [buildForestWith] at h
      cases h
      rfl
  | cons el rest ih =>
      intro v trs v' h
      unfold buildForestWith at h
      split at h
      · rw [exceptBind_ok] at h
        simp only [] at h
        cases hfo : buildForestWith buildOne v rest with
        | error e => rw [hfo] at h; simp [exceptBind_error] at h
        | ok pr =>
            obtain ⟨trees, v2⟩ := pr
            rw [hfo, exceptBind_ok] at h
            simp only [] at h
            cases h
            simp [DocTree.rootEl, ih _ _ _ hfo]
      · cases hone : buildOne v el with
        | error e => rw [hone] at h; simp [exceptBind_error] at h
        | ok pr =>
            obtain ⟨tree, v1⟩ := pr
            rw [hone, exceptBind_ok] at h
            simp only [] at h
            cases hfo : buildForestWith buildOne v1 rest with
            | error e => rw [hfo] at h; simp [exceptBind_error] at h
            | ok pr2 =>
                obtain ⟨trees, v2⟩ := pr2
                rw [hfo, exceptBind_ok] at h
                simp only [] at h
                cases h
                simp [hb1 _ _ _ _ hone, ih _ _ _ hfo]

/-- Every tree of the forest is well-formed, provided the recursor builds
well-formed trees for children satisfying `P` and every child satisfies
`P`. -/
theorem buildForestWith_treeOK
    (buildOne : ValState → Element → Except PyErr (DocTree × ValState))
    (P : Element → Prop)
    (hok : ∀ v e tr v', P e → buildOne v e = .ok (tr, v') → TreeOK tr) :
    ∀ (els : List Element) (v : ValState) (trs : List DocTree)
      (v' : ValState),
      (∀ e ∈ els, P e) →
      buildForestWith buildOne v els = .ok (trs, v') →
      ∀ c ∈ trs, TreeOK c := by
  intro els
  induction els with
  | nil =>
      intro v trs v' _ h c hc
      simp only [buildForestWith] at h
      cases h
      cases hc
  | cons el rest ih =>
      intro v trs v' hP h c hc
      unfold buildForestWith at h
      split at h
      · rw [exceptBind_ok] at h
        simp only [] at h
        cases hfo : buildForestWith buildOne v rest with
        | error e => rw [hfo] at h; simp [exceptBind_error] at h
        | ok pr =>
            obtain ⟨trees, v2⟩ := pr
            rw [hfo, exceptBind_ok] at h
            simp only [] at h
            cases h
            cases hc with
            | head =>
                exact TreeOK.node el []
                  (by intro c hc; cases hc)
                  (by simp)
                  (by intro c hc; cases hc)
            | tail _ hc' =>
                exact ih _ _ _
                  (fun e he => hP e (List.mem_cons_of_mem el he)) hfo c hc'
      · cases hone : buildOne v el with
        | error e => rw [hone] at h; simp [exceptBind_error] at h
        | ok pr =>
            obtain ⟨tree, v1⟩ := pr
            rw [hone, exceptBind_ok] at h
            simp only [] at h
            cases hfo : buildForestWith buildOne v1 rest with
            | error e => rw [hfo] at h; simp [exceptBind_error] at h
            | ok pr2 =>
                obtain ⟨trees, v2⟩ := pr2
                rw [hfo, exceptBind_ok] at h
                simp only [] at h
                cases h
                cases hc with
                | head =>
                    exact hok _ _ _ _ (hP el (List.mem_cons_self el rest))
                      hone
                | tail _ hc' =>
                    exact ih _ _ _
                      (fun e he => hP e (List.mem_cons_of_mem el he)) hfo c hc'

/-- Every tree the recursive builder produces for a non-degenerate element
satisfies C7's invariant. -/
theorem buildRecF_treeOK :
    ∀ (fuel : Nat) (v : ValState) (docText : List Char) (el : Element)
      (tr : DocTree) (v' : ValState),
      el.startPos ≤ el.endPos →
      buildRecF fuel v docText el = .ok (tr, v') → TreeOK tr := by
  intro fuel
  induction fuel with
  | zero =>
      intro v docText el tr v' _ h
      simp only [buildRecF] at h
      cases h
      exact TreeOK.node el [] (by intro c hc; cases hc) (by simp)
        (by intro c hc; cases hc)
  | succ fuel ih =>
      intro v docText el tr v' hse h
      unfold buildRecF at h
      cases hch : buildChildren v docText el with
      | error e => rw [hch] at h; simp [exceptBind_error] at h
      | ok pr =>
          obtain ⟨children, v1⟩ := pr
          rw [hch, exceptBind_ok] at h
          simp only [] at h
          cases hfo : buildForestWith
              (fun vv e => buildRecF fuel vv docText e) v1 children with
          | error e => rw [hfo] at h; simp [exceptBind_error] at h
          | ok pr2 =>
              obtain ⟨trees, v2⟩ := pr2
              rw [hfo, exceptBind_ok] at h
              simp only [] at h
              cases h
              -- children spans
              have hspan0 : spansChained el.startPos
                  (el.startPos +
                    (pySliceNat docText el.startPos el.endPos).length)
                  children := by
                have := buildChildrenF_chained
                  ((pySliceNat docText el.startPos el.endPos).length + 1)
                  v (pySliceNat docText el.startPos el.endPos)
                  el.startPos el.ty el.ty.getPossibleChildTypes 0
                  children v1 hch
                simpa using this
              have hlen := pySliceNat_length_le docText el.startPos el.endPos
              have hspan : spansChained el.startPos el.endPos children :=
                spansChained_hi_mono children el.startPos _ el.endPos
                  (by omega) hspan0
              have hroots : trees.map DocTree.rootEl = children :=
                buildForestWith_roots _
                  (fun vv e tr2 vv' hh => buildRecF_rootEl fuel vv docText e tr2 vv' hh)
                  children v1 trees _ hfo
              refine TreeOK.node el trees ?_ ?_ ?_
              · intro c hc
                have hmem : c.rootEl ∈ children := by
                  rw [← hroots]
                  exact List.mem_map_of_mem DocTree.rootEl hc
                have := spansChained_mem children el.startPos el.endPos
                  c.rootEl hspan hmem
                exact ⟨this.1, this.2.2⟩
              · rw [hroots]
                exact spansChained_pairwise children el.startPos el.endPos hspan
              · exact buildForestWith_treeOK _
                  (fun e => e.startPos ≤ e.endPos)
                  (fun vv e tr2 vv' hp hh => ih vv docText e tr2 vv' hp hh)
                  children v1 trees _
                  (fun e he =>
                    Nat.le_of_lt
                      (spansChained_mem children el.startPos el.endPos e
                        hspan he).2.1)
                  hfo

/-- **C7** (confirmed).  In every tree the builder produces, each child's
half-open span `[start_pos, end_pos)` is contained in its parent's span,
and siblings in child-list order have `child[i].end_pos ≤
child[j].start_pos` for `i < j`, at every level of the tree. -/
theorem c7_containment_and_sibling_order :
    ∀ (docText : List Char) (doc : DocTree),
      buildDocument docText = .ok doc → TreeOK doc := by
  intro docText doc h
  unfold buildDocument at h
  simp only [] at h
  cases hb : buildRecF 7 ValState.init docText
      { ty := .TOP, number := "0".data, title := [],
        startPos := 0, endPos := docText.length } with
  | error e => rw [hb] at h; simp [exceptMap_error] at h
  | ok pr =>
      obtain ⟨tr, v'⟩ := pr
      rw [hb] at h
      simp only [Except.map] at h
      cases h
      exact buildRecF_treeOK 7 ValState.init docText _ _ v'
        (Nat.zero_le _) hb

/-- **C7** witness: the invariant, via the theorem, for the concrete
two-level build of `c7Text`. -/
theorem c7_containment_and_sibling_order_witness : TreeOK c7Tree :=
  c7_containment_and_sibling_order c7Text c7Tree (by rfl)

end RoLaw
